import Mathlib

/-!
Shallow embedding of the Vogels MotionMount BLE integration
(custom_components/vogels_motionmount_ble): the telemetry line parser
(models.py, TelemetryData.update_from_line, with the regex patterns of
const.py), the characteristic auto-discovery scoring and role selection
(connection.py, score_characteristic and auto_discover_uuids), and the
connection manager connect/write/retry state machine
(connection.py, VogelsMotionMountConnection).
-/

namespace MotionMount

/-- Whitespace class of the regex escape for ASCII input: space, tab,
newline, carriage return, vertical tab, form feed. -/
def pySpace (c : Char) : Bool :=
  c == ' ' || c == '\t' || c == '\n' || c == '\r' || c == Char.ofNat 11 || c == Char.ofNat 12

def digitVal (c : Char) : Nat := c.toNat - '0'.toNat

/-- Value of a decimal digit run, as Python int applied to the captured group. -/
def digitsVal (ds : List Char) : Nat := ds.foldl (fun a c => 10 * a + digitVal c) 0

/-- Strip a literal pattern from the front of the input, returning the rest on
success. -/
def stripPfx : List Char → List Char → Option (List Char)
  | [], cs => some cs
  | _ :: _, [] => none
  | k :: ks, c :: cs => if k = c then stripPfx ks cs else none

/-- Match, at the current position, the pattern KEY, optional whitespace, an
equals sign, optional whitespace and a captured nonempty digit run, as in
TELEMETRY_EXTENSION_PATTERN and TELEMETRY_TURN_PATTERN of const.py; returns
the captured integer. The greedy digit capture takes the maximal digit run. -/
def matchNum (key : List Char) (cs : List Char) : Option Nat :=
  match stripPfx key cs with
  | none => none
  | some r0 =>
    match r0.dropWhile pySpace with
    | '=' :: r2 =>
      let r3 := r2.dropWhile pySpace
      let ds := r3.takeWhile Char.isDigit
      if ds.isEmpty then none else some (digitsVal ds)
    | _ => none

/-- Match, at the current position, the pattern KEY, optional whitespace, an
equals sign, optional whitespace and a single captured 0 or 1 digit, as in
TELEMETRY_MOVING_PATTERN of const.py. -/
def matchBit (key : List Char) (cs : List Char) : Option Nat :=
  match stripPfx key cs with
  | none => none
  | some r0 =>
    match r0.dropWhile pySpace with
    | '=' :: r2 =>
      match r2.dropWhile pySpace with
      | '0' :: _ => some 0
      | '1' :: _ => some 1
      | _ => none
    | _ => none

/-- Regex search semantics: try the matcher at every position of the line,
leftmost success wins. -/
def searchWith (m : List Char → Option Nat) : List Char → Option Nat
  | [] => m []
  | c :: cs =>
    match m (c :: cs) with
    | some v => some v
    | none => searchWith m cs

def extKey : List Char := "mount/extension/current".toList

def turnKey : List Char := "mount/turn/current".toList

def movKey : List Char := "mount/isMoving".toList

def searchExt (line : List Char) : Option Nat := searchWith (matchNum extKey) line

def searchTurn (line : List Char) : Option Nat := searchWith (matchNum turnKey) line

def searchMov (line : List Char) : Option Nat := searchWith (matchBit movKey) line

/-- TelemetryData of models.py. -/
structure TelemetryData where
  extension_current : Option Int := none
  turn_current : Option Int := none
  is_moving : Option Bool := none
deriving DecidableEq, Repr

/-- One regex block of update_from_line: when the pattern matched and the
parsed value differs from the stored one, store it and flag a change. -/
def fieldStep {α : Type} [DecidableEq α] (old : Option α) (parsed : Option α) :
    Option α × Bool :=
  match parsed with
  | some n => if old = some n then (old, false) else (some n, true)
  | none => (old, false)

/-- TelemetryData.update_from_line (models.py). The three regex blocks of the
source touch disjoint fields of the record, so its sequential mutation is
rendered as three independent field steps; the updated flag is the
disjunction of the three change flags, as accumulated by the source. The
moving value is stored as Python bool of int of the captured digit. -/
def update_from_line (t : TelemetryData) (line : List Char) : TelemetryData × Bool :=
  let fe := fieldStep t.extension_current ((searchExt line).map (fun n => (n : Int)))
  let ft := fieldStep t.turn_current ((searchTurn line).map (fun n => (n : Int)))
  let fm := fieldStep t.is_moving ((searchMov line).map (fun n => n == 1))
  (⟨fe.1, ft.1, fm.1⟩, fe.2 || ft.2 || fm.2)

/-- Folding update_from_line over a list of received lines. -/
def runLines (t : TelemetryData) (ls : List (List Char)) : TelemetryData :=
  ls.foldl (fun a l => (update_from_line a l).1) t

/-- Lowercasing of a UUID string, as str.lower on ASCII UUIDs. -/
def toLowerList (u : List Char) : List Char := u.map Char.toLower

/-- Python substring containment (the in operator) on character lists. -/
def containsSub (needle : List Char) : List Char → Bool
  | [] => needle.isEmpty
  | c :: cs => (stripPfx needle (c :: cs)).isSome || containsSub needle cs

def fa25 : List Char := "fa25".toList

def fa01 : List Char := "fa01".toList

def fa27 : List Char := "fa27".toList

/-- The two roles scored by score_characteristic. -/
inductive TargetType
  | extension
  | turn

/-- score_characteristic (connection.py, auto_discover_uuids). value is the
sampled reading of the candidate when one was available; the source fetches
it from char_info with default 0. The score accumulation of the source is
rendered as a sum over the rationals, mirroring the source formula: range
bonus, value-scaled term, then UUID substring bonuses, where the smaller
fa01 extension bonus sits on the elif branch of the fa25 test. -/
def score_characteristic (value : Option Int) (uuid : List Char) (target : TargetType) : ℚ :=
  let v : Int := value.getD 0
  let uuidLower := toLowerList uuid
  match target with
  | .extension =>
    let s1 : ℚ := if 0 ≤ |v| ∧ |v| ≤ 650 then 10 else 0
    let s2 : ℚ := min ((v.natAbs : ℚ) / 100) 10
    let s3 : ℚ :=
      if containsSub fa25 uuidLower then 50
      else if containsSub fa01 uuidLower then 5 else 0
    s1 + s2 + s3
  | .turn =>
    let s1 : ℚ := if -90 ≤ v ∧ v ≤ 90 then 10 else 0
    let s2 : ℚ := max (10 - (v.natAbs : ℚ) / 10) 0
    let s3 : ℚ := if containsSub fa27 uuidLower then 50 else 0
    s1 + s2 + s3

/-- One read+write+notify candidate characteristic offered to the scoring
phase: its UUID and, when the sampling read succeeded with at least two
bytes, the little-endian signed 16-bit value of the first two bytes. -/
structure Cand where
  uuid : List Char
  value : Option Int
deriving DecidableEq, Repr

def extScore (c : Cand) : ℚ := score_characteristic c.value c.uuid .extension

def turnScore (c : Cand) : ℚ := score_characteristic c.value c.uuid .turn

/-- Descending-score order for the extension ranking. Sorting with this
relation by a stable sort reproduces list.sort with reverse true in the
source: strictly higher scores first, ties in encounter order. -/
def extGE (a b : Cand) : Prop := extScore b ≤ extScore a

/-- Descending-score order for the turn ranking. -/
def turnGE (a b : Cand) : Prop := turnScore b ≤ turnScore a

instance : DecidableRel extGE := fun a b => inferInstanceAs (Decidable (extScore b ≤ extScore a))

instance : DecidableRel turnGE := fun a b => inferInstanceAs (Decidable (turnScore b ≤ turnScore a))

instance : IsTotal Cand extGE := ⟨fun a b => le_total (extScore b) (extScore a)⟩

instance : IsTrans Cand extGE := ⟨fun _ _ _ h1 h2 => le_trans h2 h1⟩

instance : IsTotal Cand turnGE := ⟨fun a b => le_total (turnScore b) (turnScore a)⟩

instance : IsTrans Cand turnGE := ⟨fun _ _ _ h1 h2 => le_trans h2 h1⟩

/-- The comparison of a candidate UUID against the possibly absent extension
choice, as the source compares candidate uuid with dict.get of the
extension target, where any string differs from None. -/
def uuidNe (c : Cand) (e : Option (List Char)) : Bool :=
  match e with
  | some u => c.uuid != u
  | none => true

/-- Role selection of auto_discover_uuids (connection.py, lines 128-187):
when both candidate lists are nonempty (they are always filled together,
every read+write+notify candidate joins both), rank all candidates by
extension score descending and take the head as extension target, then walk
the turn ranking and take the first candidate whose UUID differs from the
extension choice. A stable insertion sort stands in for the stable sort of
the source; stability makes the two extensionally equal. -/
def auto_discover (cands : List Cand) : Option (List Char) × Option (List Char) :=
  if cands.isEmpty then (none, none)
  else
    let extSorted := List.insertionSort extGE cands
    let extChoice := extSorted.head?.map Cand.uuid
    let turnSorted := List.insertionSort turnGE cands
    let turnChoice := (turnSorted.find? (fun c => uuidNe c extChoice)).map Cand.uuid
    (extChoice, turnChoice)

/-- Outcome of one modelled write_gatt_char call, covering the three except
clauses of the write loops. -/
inductive WriteOutcome
  | ok
  | timeout
  | bleError
  | unexpected
deriving DecidableEq, Repr

/-- Outcome of one modelled connect attempt: device lookup failure, failure
of establish_connection or of the telemetry subscription (by kind of the
raised error), or full success. -/
inductive ConnectOutcome
  | success
  | deviceNotFound
  | timeout
  | bleError
  | unexpected
deriving DecidableEq, Repr

/-- Radio operations performed against the BLE stack, recorded as a trace. -/
inductive RadioOp
  | lookupDevice
  | establish
  | subscribe
  | writeChar (uuid : List Char) (payload : List Nat)
deriving DecidableEq, Repr

/-- ConnectionStats of models.py, restricted to the fields the connection
paths touch. -/
structure ConnectionStats where
  connection_attempts : Nat := 0
  successful_connections : Nat := 0
  disconnections : Nat := 0
  last_error : Option String := none
deriving DecidableEq, Repr

/-- Connection-manager state: the shutdown, connected and connecting flags,
the configured role-to-UUID map, and the statistics record. -/
structure ConnState where
  shutdown : Bool := false
  connected : Bool := false
  connecting : Bool := false
  uuids : List (String × List Char) := []
  stats : ConnectionStats := {}
deriving DecidableEq, Repr

/-- dict.get over the role map followed by the falsy test of the source (if
not uuid), under which a missing key and an empty string both fail. -/
def truthyRole (m : List (String × List Char)) (k : String) : Option (List Char) :=
  match (m.find? (fun p => p.1 == k)).map Prod.snd with
  | some u => if u.isEmpty then none else some u
  | none => none

/-- async_connect (connection.py, lines 456-531). Fail fast under shutdown,
when already connected report success, refuse a concurrent connect; then
count the attempt, look the device up, establish the link and subscribe to
telemetry, with every failure caught, recorded in last_error and reduced to
a false result; success marks connected, counts it and clears last_error. -/
def asyncConnect (s : ConnState) (oc : ConnectOutcome) : Bool × ConnState × List RadioOp :=
  if s.shutdown then (false, s, [])
  else if s.connected then (true, s, [])
  else if s.connecting then (false, s, [])
  else
    let s1 := { s with connecting := true,
                       stats := { s.stats with connection_attempts := s.stats.connection_attempts + 1 } }
    match oc with
    | .deviceNotFound =>
      (false, { s1 with connecting := false,
                        stats := { s1.stats with last_error := some "device_not_found" } },
       [.lookupDevice])
    | .timeout =>
      (false, { s1 with connecting := false,
                        stats := { s1.stats with last_error := some "connection_timeout" } },
       [.lookupDevice, .establish])
    | .bleError =>
      (false, { s1 with connecting := false,
                        stats := { s1.stats with last_error := some "ble_error" } },
       [.lookupDevice, .establish])
    | .unexpected =>
      (false, { s1 with connecting := false,
                        stats := { s1.stats with last_error := some "unexpected_error" } },
       [.lookupDevice, .establish])
    | .success =>
      (true, { s1 with connecting := false, connected := true,
                       stats := { s1.stats with
                                  successful_connections := s1.stats.successful_connections + 1,
                                  last_error := none } },
       [.lookupDevice, .establish, .subscribe])

/-- async_disconnect (connection.py, lines 533-562): a no-op when not
connected, otherwise teardown that always reaches the disconnected state
and counts the disconnection. -/
def asyncDisconnect (s : ConnState) : ConnState :=
  if s.connected then
    { s with connected := false,
             stats := { s.stats with disconnections := s.stats.disconnections + 1 } }
  else s

/-- async_shutdown (connection.py, lines 564-577): set the terminal flag,
cancel background work, then disconnect. -/
def asyncShutdown (s : ConnState) : ConnState :=
  asyncDisconnect { s with shutdown := true }

/-- struct.pack of an unsigned 16-bit little-endian value: two bytes, low
first; out-of-range input raises, modelled as none. -/
def structPackLEH (n : Int) : Option (List Nat) :=
  if 0 ≤ n ∧ n < 65536 then some [n.toNat % 256, n.toNat / 256] else none

def clampTarget (v : Int) : Int := max 0 (min 100 v)

def targetPayloadOpt (v : Int) : Option (List Nat) := structPackLEH (clampTarget v)

/-- The bytes written by async_write_target: struct.pack of the clamped
value; the clamp keeps pack in range, so the default never fires. -/
def targetPayload (v : Int) : List Nat := (targetPayloadOpt v).getD []

/-- Python bytes of a one-element list: a single byte, raising when out of
range, modelled as none. -/
def pyBytes1 (n : Int) : Option (List Nat) :=
  if 0 ≤ n ∧ n < 256 then some [n.toNat] else none

def clampPreset (i : Int) : Int := max 0 (min 255 i)

def presetPayloadOpt (i : Int) : Option (List Nat) := pyBytes1 (clampPreset i)

/-- The byte written by async_write_preset: bytes of the clamped index. -/
def presetPayload (i : Int) : List Nat := (presetPayloadOpt i).getD []

/-- Result of one iteration of the write retry loop: a final return value
with the state and radio operations of the iteration, or a continue with
the state and operations so far. -/
inductive StepRes
  | done (b : Bool) (s : ConnState) (ops : List RadioOp)
  | retry (s : ConnState) (ops : List RadioOp)
deriving DecidableEq, Repr

/-- The operations performed by one loop iteration. -/
def stepOps : StepRes → List RadioOp
  | .done _ _ ops => ops
  | .retry _ ops => ops

/-- The state after one loop iteration. -/
def stepState : StepRes → ConnState
  | .done _ s _ => s
  | .retry s _ => s

/-- The try body shared by async_write_target and async_write_preset: look
the role UUID up and fail fast, without a write, when it is unconfigured;
otherwise issue the write, returning true on success, while a timeout, BLE
error or unexpected error marks the link not connected and retries. pre
carries the radio operations of a reconnection made earlier in the same
iteration. -/
def writeBody (uuidKey : String) (payload : List Nat) (w : WriteOutcome) (s : ConnState)
    (pre : List RadioOp) : StepRes :=
  match truthyRole s.uuids uuidKey with
  | none => .done false s pre
  | some u =>
    match w with
    | .ok => .done true s (pre ++ [RadioOp.writeChar u payload])
    | _ => .retry { s with connected := false } (pre ++ [RadioOp.writeChar u payload])

/-- One iteration of the retry loop of async_write_target (connection.py,
lines 579-625) and async_write_preset (lines 627-670): when not connected,
call async_connect first, and on connect failure return false if this was
the final attempt (attempt index 2), otherwise continue with the next
attempt; once connected, run the try body. -/
def writeAttempt (uuidKey : String) (payload : List Nat) (oc : ConnectOutcome)
    (w : WriteOutcome) (isLast : Bool) (s : ConnState) : StepRes :=
  if s.connected then writeBody uuidKey payload w s []
  else
    match asyncConnect s oc with
    | (true, s1, ops) => writeBody uuidKey payload w s1 ops
    | (false, s1, ops) => if isLast then .done false s1 ops else .retry s1 ops

/-- The shared retry loop of async_write_target and async_write_preset,
which differ only in the role key looked up and the payload written. k is
the attempt index of the source loop, r the remaining iterations
(initially 3, so the final attempt has index 2). Falling out of the loop
returns false. -/
def writeRetryGo (uuidKey : String) (payload : List Nat) (envC : Nat → ConnectOutcome)
    (envW : Nat → WriteOutcome) :
    Nat → Nat → ConnState → List RadioOp → Bool × ConnState × List RadioOp
  | _, 0, s, tr => (false, s, tr)
  | k, r + 1, s, tr =>
    match writeAttempt uuidKey payload (envC k) (envW k) (k == 2) s with
    | .done b s1 ops => (b, s1, tr ++ ops)
    | .retry s1 ops => writeRetryGo uuidKey payload envC envW (k + 1) r s1 (tr ++ ops)

/-- async_write_target: the retry loop on the given role with the packed
clamped target value. -/
def asyncWriteTarget (s : ConnState) (role : String) (v : Int) (envC : Nat → ConnectOutcome)
    (envW : Nat → WriteOutcome) : Bool × ConnState × List RadioOp :=
  writeRetryGo role (targetPayload v) envC envW 0 3 s []

/-- async_write_preset: the retry loop on the preset role with the single
clamped index byte. -/
def asyncWritePreset (s : ConnState) (i : Int) (envC : Nat → ConnectOutcome)
    (envW : Nat → WriteOutcome) : Bool × ConnState × List RadioOp :=
  writeRetryGo "preset" (presetPayload i) envC envW 0 3 s []

/-- Number of write operations in a trace. -/
def countWrites (tr : List RadioOp) : Nat :=
  tr.countP fun op => match op with | .writeChar _ _ => true | _ => false

/-- Number of connect attempts (device lookups) in a trace. -/
def countConnectCalls (tr : List RadioOp) : Nat :=
  tr.countP fun op => match op with | .lookupDevice => true | _ => false

/-- Public operations of the connection manager, each with the environment
outcomes its radio calls need. -/
inductive MgrOp
  | connect (oc : ConnectOutcome)
  | disconnect
  | shutdownOp
  | writeTarget (role : String) (v : Int) (envC : Nat → ConnectOutcome) (envW : Nat → WriteOutcome)
  | writePreset (i : Int) (envC : Nat → ConnectOutcome) (envW : Nat → WriteOutcome)

/-- State effect of one public operation. -/
def applyOp (s : ConnState) : MgrOp → ConnState
  | .connect oc => (asyncConnect s oc).2.1
  | .disconnect => asyncDisconnect s
  | .shutdownOp => asyncShutdown s
  | .writeTarget role v envC envW => (asyncWriteTarget s role v envC envW).2.1
  | .writePreset i envC envW => (asyncWritePreset s i envC envW).2.1

/-- Running a sequence of public operations. -/
def runOps (s : ConnState) (ops : List MgrOp) : ConnState := ops.foldl applyOp s

/-- Example candidate with sampled value 600 (extension-like). -/
def candA : Cand := Cand.mk "aa".toList (some 600)

/-- Example candidate with sampled value 30 (turn-like). -/
def candB : Cand := Cand.mk "bb".toList (some 30)

/-- Example state: connected, no role UUIDs configured. -/
def connState10 : ConnState :=
  { shutdown := false, connected := true, connecting := false, uuids := [], stats := {} }

/-- Example state: connected, extension and preset roles configured, with a
stale error already recorded in statistics. -/
def connState2 : ConnState :=
  { shutdown := false, connected := true, connecting := false,
    uuids := [("extension_target", "aa".toList), ("preset", "pp".toList)],
    stats := { connection_attempts := 0, successful_connections := 0, disconnections := 0,
               last_error := some "previous_error" } }

theorem stripPfx_append (ks cs : List Char) : stripPfx ks (ks ++ cs) = some cs := by
  induction ks with
  | nil => rfl
  | cons k ks ih => simp [stripPfx, ih]

theorem searchWith_of_head {m : List Char → Option Nat} {l : List Char} {v : Nat}
    (h : m l = some v) : searchWith m l = some v := by
  cases l with
  | nil => simpa [searchWith] using h
  | cons c cs => simp [searchWith, h]

theorem digit_not_pySpace {c : Char} (h : c.isDigit = true) : pySpace c = false := by
  simp only [pySpace, Bool.or_eq_false_iff, beq_eq_false_iff_ne, ne_eq]
  refine ⟨⟨⟨⟨⟨?_, ?_⟩, ?_⟩, ?_⟩, ?_⟩, ?_⟩ <;> rintro rfl <;> exact absurd h (by decide)

theorem takeWhile_of_all {p : Char → Bool} {l : List Char}
    (h : ∀ c ∈ l, p c = true) : l.takeWhile p = l := by
  induction l with
  | nil => rfl
  | cons c cs ih =>
    have hc : p c = true := h c (by simp)
    simp [List.takeWhile, hc, ih fun x hx => h x (by simp [hx])]

theorem matchNum_exact (key ds : List Char) (h1 : ds ≠ [])
    (h2 : ∀ c ∈ ds, c.isDigit = true) :
    matchNum key (key ++ '=' :: ds) = some (digitsVal ds) := by
  unfold matchNum
  rw [stripPfx_append]
  have heq : pySpace '=' = false := by decide
  simp only [List.dropWhile_cons, heq, if_false]
  have hds : ds.dropWhile pySpace = ds := by
    cases ds with
    | nil => rfl
    | cons d ds' =>
      have : pySpace d = false := digit_not_pySpace (h2 d (by simp))
      simp [List.dropWhile_cons, this]
  have htk : ds.takeWhile Char.isDigit = ds := takeWhile_of_all h2
  simp [hds, htk, List.isEmpty_iff, h1]

theorem matchBit_exact (key : List Char) (b : Char) (hb : b = '0' ∨ b = '1') :
    matchBit key (key ++ ['=', b]) = some (if b == '1' then 1 else 0) := by
  unfold matchBit
  rw [stripPfx_append]
  rcases hb with rfl | rfl <;> decide

theorem fieldStep_fst_some {α : Type} [DecidableEq α] (o : Option α) (v : α) :
    (fieldStep o (some v)).1 = some v := by
  by_cases h : o = some v <;> simp [fieldStep, h]

theorem fieldStep_snd_iff {α : Type} [DecidableEq α] (o p : Option α) :
    (fieldStep o p).2 = true ↔ (fieldStep o p).1 ≠ o := by
  cases p with
  | none => simp [fieldStep]
  | some n =>
    by_cases h : o = some n
    · simp [fieldStep, h]
    · simp [fieldStep, h, Ne.symm h]

theorem fieldStep_idem {α : Type} [DecidableEq α] (o p : Option α) :
    (fieldStep (fieldStep o p).1 p).2 = false := by
  cases p with
  | none => simp [fieldStep]
  | some n =>
    by_cases h : o = some n <;> simp [fieldStep, h]

theorem fieldStep_fst_none_iff {α : Type} [DecidableEq α] (o p : Option α) :
    (fieldStep o p).1 = none ↔ o = none ∧ p = none := by
  cases p with
  | none => simp [fieldStep]
  | some n =>
    by_cases h : o = some n <;> simp [fieldStep, h]

theorem update_ext_none_iff (t : TelemetryData) (line : List Char) :
    (update_from_line t line).1.extension_current = none ↔
      t.extension_current = none ∧ searchExt line = none := by
  cases h : searchExt line with
  | none => simp [update_from_line, fieldStep_fst_none_iff, h]
  | some n => simp [update_from_line, h, fieldStep_fst_some]

theorem update_turn_none_iff (t : TelemetryData) (line : List Char) :
    (update_from_line t line).1.turn_current = none ↔
      t.turn_current = none ∧ searchTurn line = none := by
  cases h : searchTurn line with
  | none => simp [update_from_line, fieldStep_fst_none_iff, h]
  | some n => simp [update_from_line, h, fieldStep_fst_some]

theorem update_mov_none_iff (t : TelemetryData) (line : List Char) :
    (update_from_line t line).1.is_moving = none ↔
      t.is_moving = none ∧ searchMov line = none := by
  cases h : searchMov line with
  | none => simp [update_from_line, fieldStep_fst_none_iff, h]
  | some n => simp [update_from_line, h, fieldStep_fst_some]

/-- C1 counterexample: the line mount/turn/current=-5 contains the turn field
name, an equals sign and the integer -5, yet update_from_line stores
nothing and reports no change, because the turn pattern captures an
unsigned digit run and never matches a minus sign. -/
theorem c1_counterexample :
    update_from_line ⟨none, none, none⟩ ("mount/turn/current=-5".toList)
      = (⟨none, none, none⟩, false) := by decide

/-- C1 (amended): for a line consisting of the extension or turn field name
followed by an equals sign and the decimal digits of a nonnegative integer
N, update_from_line stores N in the matching field, and an isMoving line
with digit b in 0,1 stores the boolean of b; negative integers are never
recognized, since the patterns capture unsigned digit runs. -/
theorem c1_parser_integer_recognition :
    (∀ (t : TelemetryData) (ds : List Char), ds ≠ [] → (∀ c ∈ ds, c.isDigit = true) →
      (update_from_line t (extKey ++ '=' :: ds)).1.extension_current = some (digitsVal ds : Int)
      ∧ (update_from_line t (turnKey ++ '=' :: ds)).1.turn_current = some (digitsVal ds : Int))
    ∧ (∀ (t : TelemetryData) (b : Char), b = '0' ∨ b = '1' →
      (update_from_line t (movKey ++ ['=', b])).1.is_moving = some (b == '1')) := by
  constructor
  · intro t ds h1 h2
    have he : searchExt (extKey ++ '=' :: ds) = some (digitsVal ds) :=
      searchWith_of_head (matchNum_exact extKey ds h1 h2)
    have ht : searchTurn (turnKey ++ '=' :: ds) = some (digitsVal ds) :=
      searchWith_of_head (matchNum_exact turnKey ds h1 h2)
    constructor
    · simp [update_from_line, he, fieldStep_fst_some]
    · simp [update_from_line, ht, fieldStep_fst_some]
  · intro t b hb
    have hm : searchMov (movKey ++ ['=', b]) = some (if b == '1' then 1 else 0) :=
      searchWith_of_head (matchBit_exact movKey b hb)
    rcases hb with rfl | rfl <;> simp [update_from_line, hm, fieldStep_fst_some]

/-- C1 witness: concrete lines storing 42 into each numeric field and true
into the moving flag. -/
theorem c1_witness :
    ((update_from_line ⟨none, none, none⟩ (extKey ++ '=' :: ['4', '2'])).1.extension_current
        = some (digitsVal ['4', '2'] : Int))
    ∧ ((update_from_line ⟨none, none, none⟩ (turnKey ++ '=' :: ['4', '2'])).1.turn_current
        = some (digitsVal ['4', '2'] : Int))
    ∧ ((update_from_line ⟨none, none, none⟩ (movKey ++ ['=', '1'])).1.is_moving
        = some ('1' == '1')) :=
  ⟨(c1_parser_integer_recognition.1 ⟨none, none, none⟩ ['4', '2'] (by decide) (by decide)).1,
   (c1_parser_integer_recognition.1 ⟨none, none, none⟩ ['4', '2'] (by decide) (by decide)).2,
   c1_parser_integer_recognition.2 ⟨none, none, none⟩ '1' (Or.inr rfl)⟩

/-- C7: update_from_line reports true exactly when some stored field changed
during the call; repeating the identical line reports false the second
time; a line matching none of the three patterns returns false and leaves
every field unchanged. -/
theorem c7_change_signaling :
    (∀ (t : TelemetryData) (line : List Char),
      (update_from_line t line).2 = true ↔ (update_from_line t line).1 ≠ t)
    ∧ (∀ (t : TelemetryData) (line : List Char),
      (update_from_line (update_from_line t line).1 line).2 = false)
    ∧ (∀ (t : TelemetryData) (line : List Char),
      searchExt line = none → searchTurn line = none → searchMov line = none →
      update_from_line t line = (t, false)) := by
  refine ⟨?_, ?_, ?_⟩
  · intro t line
    obtain ⟨e0, t0, m0⟩ := t
    simp only [update_from_line, ne_eq, TelemetryData.mk.injEq, Bool.or_eq_true,
      fieldStep_snd_iff, not_and_or]
    tauto
  · intro t line
    simp [update_from_line, fieldStep_idem]
  · intro t line h1 h2 h3
    obtain ⟨e0, t0, m0⟩ := t
    simp [update_from_line, h1, h2, h3, fieldStep]

/-- C7 witness: a garbage line is a no-op on a partly set record. -/
theorem c7_witness :
    update_from_line ⟨some 7, none, some true⟩ ("garbage".toList)
      = (⟨some 7, none, some true⟩, false) :=
  c7_change_signaling.2.2 ⟨some 7, none, some true⟩ ("garbage".toList)
    (by decide) (by decide) (by decide)

/-- C8: over any sequence of update_from_line calls, a telemetry field ends
unset exactly when it started unset and no line matched its pattern: each
field stays unset until its first matching line and, once set, never
returns to unset. -/
theorem c8_set_once_stays_set (t : TelemetryData) (ls : List (List Char)) :
    ((runLines t ls).extension_current = none ↔
        t.extension_current = none ∧ ∀ l ∈ ls, searchExt l = none)
    ∧ ((runLines t ls).turn_current = none ↔
        t.turn_current = none ∧ ∀ l ∈ ls, searchTurn l = none)
    ∧ ((runLines t ls).is_moving = none ↔
        t.is_moving = none ∧ ∀ l ∈ ls, searchMov l = none) := by
  induction ls generalizing t with
  | nil => simp [runLines]
  | cons l ls ih =>
    have hstep : runLines t (l :: ls) = runLines (update_from_line t l).1 ls := rfl
    refine ⟨?_, ?_, ?_⟩
    · rw [hstep, (ih (update_from_line t l).1).1, update_ext_none_iff]
      simp only [List.forall_mem_cons]
      tauto
    · rw [hstep, (ih (update_from_line t l).1).2.1, update_turn_none_iff]
      simp only [List.forall_mem_cons]
      tauto
    · rw [hstep, (ih (update_from_line t l).1).2.2, update_mov_none_iff]
      simp only [List.forall_mem_cons]
      tauto

theorem find?_sorted_ge {α : Type} (key : α → ℚ) (p : α → Bool) :
    ∀ (l : List α), List.Sorted (fun a b => key b ≤ key a) l →
      ∀ a, l.find? p = some a → ∀ b ∈ l, p b = true → key b ≤ key a := by
  intro l
  induction l with
  | nil =>
    intro _ a hf
    simp at hf
  | cons c cs ih =>
    intro hs a hf b hb hp
    rw [List.sorted_cons] at hs
    by_cases hpc : p c = true
    · rw [List.find?_cons_of_pos _ hpc] at hf
      obtain rfl : c = a := by injection hf
      rcases List.mem_cons.mp hb with rfl | hb'
      · exact le_refl _
      · exact hs.1 b hb'
    · rw [List.find?_cons_of_neg _ hpc] at hf
      rcases List.mem_cons.mp hb with rfl | hb'
      · exact absurd hp hpc
      · exact ih hs.2 a hf b hb' hp

/-- C3 counterexample: a UUID containing both fa25 and fa01 receives only
the 50 bonus, not 50 plus 5, because the fa01 test sits on the elif branch
of the fa25 test; at sampled value absent the extension score is 60, where
the stated formula gives 65. -/
theorem c3_counterexample :
    score_characteristic none ("fa25fa01".toList) TargetType.extension = 60 ∧
      score_characteristic none ("fa25fa01".toList) TargetType.extension ≠ 65 := by
  constructor <;> simp +decide [score_characteristic] <;> norm_num

/-- C3 (amended): the extension score is the range bonus (10 when the
absolute value is at most 650) plus the value term min of the absolute
value over 100 and 10, plus 50 when the UUID contains fa25, plus 5 when it
contains fa01 and does not contain fa25 (the smaller bonus is on the elif
branch, so it never stacks with the larger one); the turn score is as
stated: range bonus for values in -90 to 90, plus max of 10 minus a tenth
of the absolute value and 0, plus 50 for fa27; and the selected extension
target is a candidate of maximal extension score. -/
theorem c3_scoring_formula :
    (∀ (value : Option Int) (uuid : List Char),
      score_characteristic value uuid .extension =
        (if |value.getD 0| ≤ 650 then (10 : ℚ) else 0)
        + min (((value.getD 0).natAbs : ℚ) / 100) 10
        + (if containsSub fa25 (toLowerList uuid) then (50 : ℚ) else 0)
        + (if containsSub fa25 (toLowerList uuid) = false ∧
              containsSub fa01 (toLowerList uuid) = true then (5 : ℚ) else 0))
    ∧ (∀ (value : Option Int) (uuid : List Char),
      score_characteristic value uuid .turn =
        (if -90 ≤ value.getD 0 ∧ value.getD 0 ≤ 90 then (10 : ℚ) else 0)
        + max (10 - ((value.getD 0).natAbs : ℚ) / 10) 0
        + (if containsSub fa27 (toLowerList uuid) then (50 : ℚ) else 0))
    ∧ (∀ (cands : List Cand) (e : List Char),
      (auto_discover cands).1 = some e →
      ∃ c ∈ cands, c.uuid = e ∧ ∀ d ∈ cands, extScore d ≤ extScore c) := by
  refine ⟨?_, ?_, ?_⟩
  · intro value uuid
    by_cases h25 : containsSub fa25 (toLowerList uuid) <;>
      by_cases h01 : containsSub fa01 (toLowerList uuid) <;>
        simp [score_characteristic, h25, h01, abs_nonneg]
  · intro value uuid
    by_cases h27 : containsSub fa27 (toLowerList uuid) <;>
      simp [score_characteristic, h27]
  · intro cands e h
    by_cases hc : cands.isEmpty
    · simp [auto_discover, hc] at h
    · simp only [auto_discover, if_neg hc] at h
      have hsorted := List.sorted_insertionSort extGE cands
      have hperm := List.perm_insertionSort extGE cands
      cases hs : List.insertionSort extGE cands with
      | nil => rw [hs] at h; simp at h
      | cons c rest =>
        rw [hs] at h
        simp only [List.head?_cons, Option.map_some', Option.some.injEq] at h
        refine ⟨c, ?_, h, ?_⟩
        · refine hperm.mem_iff.mp ?_
          rw [hs]
          exact List.mem_cons_self c rest
        · intro d hd
          have hd' : d ∈ c :: rest := by
            rw [← hs]
            exact hperm.mem_iff.mpr hd
          rw [hs, List.sorted_cons] at hsorted
          rcases List.mem_cons.mp hd' with rfl | hd''
          · exact le_refl _
          · exact hsorted.1 d hd''

theorem extScore_candA : extScore candA = 16 := by
  simp +decide [extScore, score_characteristic, candA]
  norm_num

theorem extScore_candB : extScore candB = 103 / 10 := by
  simp +decide [extScore, score_characteristic, candB]
  norm_num

theorem turnScore_candA : turnScore candA = 0 := by
  simp +decide [turnScore, score_characteristic, candA]
  norm_num

theorem turnScore_candB : turnScore candB = 17 := by
  simp +decide [turnScore, score_characteristic, candB]
  norm_num

theorem auto_discover_example :
    auto_discover [candA, candB] = (some ("aa".toList), some ("bb".toList)) := by
  have hab : extGE candA candB := by
    rw [extGE, extScore_candA, extScore_candB]
    norm_num
  have htab : ¬ turnGE candA candB := by
    rw [turnGE, turnScore_candA, turnScore_candB]
    norm_num
  rw [auto_discover, if_neg (by decide)]
  simp only [List.insertionSort, if_pos hab, if_neg htab, List.orderedInsert]
  simp +decide [uuidNe, candA, candB]

/-- C3 witness: with sampled values 600 and 30 and no UUID hints, the
candidate with value 600 is the extension choice of maximal extension
score. -/
theorem c3_witness :
    ∃ c ∈ [candA, candB], c.uuid = "aa".toList ∧
      ∀ d ∈ [candA, candB], extScore d ≤ extScore c :=
  c3_scoring_formula.2.2 [candA, candB] ("aa".toList)
    (by simp [auto_discover_example])

/-- C5: whenever role selection yields both an extension target and a turn
target, their UUIDs differ, the turn choice being the first entry of the
turn ranking distinct from the extension choice; the turn target is left
unset exactly when no candidate distinct from the extension choice remains:
unset implies every candidate carries the extension choice UUID, and when
every candidate carries it the turn target is left unset. -/
theorem c5_role_distinctness :
    (∀ (cands : List Cand) (e t : List Char),
      auto_discover cands = (some e, some t) → t ≠ e)
    ∧ (∀ (cands : List Cand) (e : List Char),
      auto_discover cands = (some e, none) → ∀ c ∈ cands, c.uuid = e)
    ∧ (∀ (cands : List Cand) (e : List Char),
      (auto_discover cands).1 = some e → (∀ c ∈ cands, c.uuid = e) →
      (auto_discover cands).2 = none) := by
  refine ⟨?_, ?_, ?_⟩
  · intro cands e t h
    by_cases hc : cands.isEmpty
    · simp [auto_discover, hc] at h
    · simp only [auto_discover, if_neg hc] at h
      rw [Prod.mk.injEq] at h
      obtain ⟨h1, h2⟩ := h
      rw [h1] at h2
      rw [Option.map_eq_some'] at h2
      obtain ⟨c, hfind, hct⟩ := h2
      have hp := List.find?_some hfind
      simp only [uuidNe, bne_iff_ne, ne_eq, decide_eq_true_eq] at hp
      rw [← hct]
      exact hp
  · intro cands e h c hcmem
    by_cases hc : cands.isEmpty
    · rw [List.isEmpty_iff] at hc
      subst hc
      simp at hcmem
    · simp only [auto_discover, if_neg hc] at h
      rw [Prod.mk.injEq] at h
      obtain ⟨h1, h2⟩ := h
      rw [h1] at h2
      rw [Option.map_eq_none', List.find?_eq_none] at h2
      have hcmem' : c ∈ List.insertionSort turnGE cands :=
        (List.perm_insertionSort turnGE cands).mem_iff.mpr hcmem
      have := h2 c hcmem'
      simpa [uuidNe, bne_iff_ne] using this
  · intro cands e h1 hall
    by_cases hc : cands.isEmpty
    · simp [auto_discover, hc] at h1
    · simp only [auto_discover, if_neg hc] at h1 ⊢
      rw [h1]
      rw [Option.map_eq_none', List.find?_eq_none]
      intro c hcmem
      have hcm : c ∈ cands := (List.perm_insertionSort turnGE cands).mem_iff.mp hcmem
      simp [uuidNe, hall c hcm]

/-- C5 witness: with sampled values 600 and 30 the two selected roles are
distinct characteristics; with a single candidate the turn target is left
unset. -/
theorem c5_witness :
    ("bb".toList ≠ "aa".toList)
    ∧ (∀ c ∈ [candA], c.uuid = "aa".toList)
    ∧ (auto_discover [candA]).2 = none :=
  ⟨c5_role_distinctness.1 [candA, candB] ("aa".toList) ("bb".toList) auto_discover_example,
   c5_role_distinctness.2.1 [candA] ("aa".toList) (by decide),
   c5_role_distinctness.2.2 [candA] ("aa".toList) (by decide) (by decide)⟩

/-- C9: a candidate without a sampled value is scored with the default value
0, so its extension score is the constant 10 plus its UUID bonus and its
turn score is the constant 20 plus its UUID bonus: both depend only on the
UUID substrings, with no sampled-value contribution. -/
theorem c9_unvalued_scoring (c : Cand) (h : c.value = none) :
    score_characteristic c.value c.uuid .extension
      = 10 + (if containsSub fa25 (toLowerList c.uuid) then (50 : ℚ)
              else if containsSub fa01 (toLowerList c.uuid) then 5 else 0)
    ∧ score_characteristic c.value c.uuid .turn
      = 20 + (if containsSub fa27 (toLowerList c.uuid) then (50 : ℚ) else 0) := by
  rw [h]
  constructor
  · by_cases h25 : containsSub fa25 (toLowerList c.uuid) <;>
      by_cases h01 : containsSub fa01 (toLowerList c.uuid) <;>
        simp [score_characteristic, h25, h01]
  · by_cases h27 : containsSub fa27 (toLowerList c.uuid) <;>
      simp [score_characteristic, h27] <;> norm_num

/-- C9 witness: a concrete unreadable candidate with an fa01 UUID. -/
theorem c9_witness :
    score_characteristic (Cand.mk "0000fa01".toList none).value
        (Cand.mk "0000fa01".toList none).uuid .extension
      = 10 + (if containsSub fa25 (toLowerList (Cand.mk "0000fa01".toList none).uuid) then (50 : ℚ)
              else if containsSub fa01 (toLowerList (Cand.mk "0000fa01".toList none).uuid) then 5 else 0)
    ∧ score_characteristic (Cand.mk "0000fa01".toList none).value
        (Cand.mk "0000fa01".toList none).uuid .turn
      = 20 + (if containsSub fa27 (toLowerList (Cand.mk "0000fa01".toList none).uuid) then (50 : ℚ) else 0) :=
  c9_unvalued_scoring (Cand.mk "0000fa01".toList none) rfl

theorem countWrites_append (a b : List RadioOp) :
    countWrites (a ++ b) = countWrites a + countWrites b :=
  List.countP_append _ a b

theorem countConnectCalls_append (a b : List RadioOp) :
    countConnectCalls (a ++ b) = countConnectCalls a + countConnectCalls b :=
  List.countP_append _ a b

theorem asyncConnect_shutdown_eq (s : ConnState) (oc : ConnectOutcome) :
    ((asyncConnect s oc).2.1).shutdown = s.shutdown := by
  unfold asyncConnect
  split_ifs <;> cases oc <;> rfl

theorem asyncConnect_uuids_eq (s : ConnState) (oc : ConnectOutcome) :
    ((asyncConnect s oc).2.1).uuids = s.uuids := by
  unfold asyncConnect
  split_ifs <;> cases oc <;> rfl

theorem asyncConnect_countW (s : ConnState) (oc : ConnectOutcome) :
    countWrites (asyncConnect s oc).2.2 = 0 := by
  unfold asyncConnect
  split_ifs <;> cases oc <;> rfl

theorem asyncConnect_countC (s : ConnState) (oc : ConnectOutcome) :
    countConnectCalls (asyncConnect s oc).2.2 ≤ 1 := by
  unfold asyncConnect
  split_ifs <;> cases oc <;> simp [countConnectCalls, List.countP_cons, List.countP_nil]

theorem asyncConnect_false_connected (s : ConnState) (oc : ConnectOutcome)
    (h : s.connected = false) (hf : (asyncConnect s oc).1 = false) :
    ((asyncConnect s oc).2.1).connected = false := by
  unfold asyncConnect at hf ⊢
  split_ifs at hf ⊢ <;> cases oc <;> simp_all

theorem writeBody_shutdown (key : String) (payload : List Nat) (w : WriteOutcome)
    (s : ConnState) (pre : List RadioOp) :
    (stepState (writeBody key payload w s pre)).shutdown = s.shutdown := by
  unfold writeBody
  cases truthyRole s.uuids key <;> cases w <;> rfl

theorem writeBody_uuids (key : String) (payload : List Nat) (w : WriteOutcome)
    (s : ConnState) (pre : List RadioOp) :
    (stepState (writeBody key payload w s pre)).uuids = s.uuids := by
  unfold writeBody
  cases truthyRole s.uuids key <;> cases w <;> rfl

theorem writeBody_ops (key : String) (payload : List Nat) (w : WriteOutcome)
    (s : ConnState) (pre : List RadioOp) :
    countWrites (stepOps (writeBody key payload w s pre)) ≤ countWrites pre + 1
    ∧ countConnectCalls (stepOps (writeBody key payload w s pre)) = countConnectCalls pre
    ∧ ∀ u p, RadioOp.writeChar u p ∈ stepOps (writeBody key payload w s pre) →
        RadioOp.writeChar u p ∈ pre ∨ p = payload := by
  unfold writeBody
  cases truthyRole s.uuids key with
  | none =>
    refine ⟨by simp [stepOps], by simp [stepOps], ?_⟩
    intro u p hmem
    exact Or.inl (by simpa [stepOps] using hmem)
  | some u0 =>
    cases w <;>
      refine ⟨?_, ?_, ?_⟩ <;>
        simp [stepOps, countWrites_append, countConnectCalls_append, countWrites,
          countConnectCalls, List.countP_cons] <;>
        intro u p hmem <;> tauto

theorem writeBody_retry_connected (key : String) (payload : List Nat) (w : WriteOutcome)
    (s s1 : ConnState) (pre ops : List RadioOp)
    (h : writeBody key payload w s pre = .retry s1 ops) : s1.connected = false := by
  unfold writeBody at h
  rcases htr : truthyRole s.uuids key with _ | u0
  · rw [htr] at h
    exact absurd h (by simp)
  · rw [htr] at h
    cases w
    · exact absurd h (by simp)
    all_goals
      obtain ⟨h1, h2⟩ := StepRes.retry.inj h
      rw [← h1]

theorem writeBody_done_true (key : String) (payload : List Nat) (w : WriteOutcome)
    (s s1 : ConnState) (pre ops : List RadioOp)
    (h : writeBody key payload w s pre = .done true s1 ops) : w = .ok := by
  unfold writeBody at h
  rcases htr : truthyRole s.uuids key with _ | u0 <;> rw [htr] at h <;> cases w <;> simp_all

theorem writeBody_done_false_role (key : String) (payload : List Nat) (w : WriteOutcome)
    (s s1 : ConnState) (pre ops : List RadioOp)
    (hrole : truthyRole s.uuids key ≠ none)
    (h : writeBody key payload w s pre = .done false s1 ops) : False := by
  unfold writeBody at h
  rcases htr : truthyRole s.uuids key with _ | u0 <;> rw [htr] at h <;> cases w <;> simp_all

theorem writeAttempt_shutdown (key : String) (payload : List Nat) (oc : ConnectOutcome)
    (w : WriteOutcome) (last : Bool) (s : ConnState) :
    (stepState (writeAttempt key payload oc w last s)).shutdown = s.shutdown := by
  unfold writeAttempt
  by_cases hconn : s.connected
  · rw [if_pos hconn]
    exact writeBody_shutdown key payload w s []
  · rw [if_neg hconn]
    rcases hA : asyncConnect s oc with ⟨b, s1, ops⟩
    have h1 : s1.shutdown = s.shutdown := by
      have := asyncConnect_shutdown_eq s oc
      rw [hA] at this
      exact this
    cases b
    · cases last <;> simp [stepState, h1]
    · rw [← h1]
      exact writeBody_shutdown key payload w s1 ops

theorem writeAttempt_uuids (key : String) (payload : List Nat) (oc : ConnectOutcome)
    (w : WriteOutcome) (last : Bool) (s : ConnState) :
    (stepState (writeAttempt key payload oc w last s)).uuids = s.uuids := by
  unfold writeAttempt
  by_cases hconn : s.connected
  · rw [if_pos hconn]
    exact writeBody_uuids key payload w s []
  · rw [if_neg hconn]
    rcases hA : asyncConnect s oc with ⟨b, s1, ops⟩
    have h1 : s1.uuids = s.uuids := by
      have := asyncConnect_uuids_eq s oc
      rw [hA] at this
      exact this
    cases b
    · cases last <;> simp [stepState, h1]
    · rw [← h1]
      exact writeBody_uuids key payload w s1 ops

theorem writeAttempt_ops (key : String) (payload : List Nat) (oc : ConnectOutcome)
    (w : WriteOutcome) (last : Bool) (s : ConnState) :
    countWrites (stepOps (writeAttempt key payload oc w last s)) ≤ 1
    ∧ countConnectCalls (stepOps (writeAttempt key payload oc w last s)) ≤ 1
    ∧ ∀ u p, RadioOp.writeChar u p ∈ stepOps (writeAttempt key payload oc w last s) →
        p = payload := by
  unfold writeAttempt
  by_cases hconn : s.connected
  · rw [if_pos hconn]
    obtain ⟨h1, h2, h3⟩ := writeBody_ops key payload w s []
    refine ⟨by simpa [countWrites] using h1, ?_, ?_⟩
    · rw [h2]
      simp [countConnectCalls]
    · intro u p hmem
      rcases h3 u p hmem with h | h
      · simp at h
      · exact h
  · rw [if_neg hconn]
    rcases hA : asyncConnect s oc with ⟨b, s1, ops⟩
    have hW : countWrites ops = 0 := by
      have := asyncConnect_countW s oc
      rw [hA] at this
      exact this
    have hC : countConnectCalls ops ≤ 1 := by
      have := asyncConnect_countC s oc
      rw [hA] at this
      exact this
    have hnomem : ∀ u p, RadioOp.writeChar u p ∉ ops := by
      intro u p hmem
      have := (List.countP_eq_zero.mp hW) _ hmem
      simp at this
    cases b
    · cases last <;>
        refine ⟨by simp [stepOps, hW], by simpa [stepOps] using hC, ?_⟩ <;>
          intro u p hmem <;>
            exact absurd (by simpa [stepOps] using hmem) (hnomem u p)
    · obtain ⟨h1, h2, h3⟩ := writeBody_ops key payload w s1 ops
      refine ⟨?_, ?_, ?_⟩
      · rw [hW] at h1
        simpa using h1
      · rw [h2]
        exact hC
      · intro u p hmem
        rcases h3 u p hmem with h | h
        · exact absurd h (hnomem u p)
        · exact h

theorem writeAttempt_retry_connected (key : String) (payload : List Nat) (oc : ConnectOutcome)
    (w : WriteOutcome) (last : Bool) (s s1 : ConnState) (ops : List RadioOp)
    (h : writeAttempt key payload oc w last s = .retry s1 ops) : s1.connected = false := by
  unfold writeAttempt at h
  by_cases hconn : s.connected
  · rw [if_pos hconn] at h
    exact writeBody_retry_connected key payload w s s1 [] ops h
  · rw [if_neg hconn] at h
    rcases hA : asyncConnect s oc with ⟨b, s2, ops2⟩
    rw [hA] at h
    cases b
    · cases last <;> simp_all
      have := asyncConnect_false_connected s oc (by simpa using hconn) (by rw [hA])
      rw [hA] at this
      simp_all [stepState]
    · exact writeBody_retry_connected key payload w s2 s1 ops2 ops h

theorem writeAttempt_done_true (key : String) (payload : List Nat) (oc : ConnectOutcome)
    (w : WriteOutcome) (last : Bool) (s s1 : ConnState) (ops : List RadioOp)
    (h : writeAttempt key payload oc w last s = .done true s1 ops) : w = .ok := by
  unfold writeAttempt at h
  by_cases hconn : s.connected
  · rw [if_pos hconn] at h
    exact writeBody_done_true key payload w s s1 [] ops h
  · rw [if_neg hconn] at h
    rcases hA : asyncConnect s oc with ⟨b, s2, ops2⟩
    rw [hA] at h
    cases b
    · cases last <;> simp_all
    · exact writeBody_done_true key payload w s2 s1 ops2 ops h

theorem writeAttempt_done_false_connected (key : String) (payload : List Nat)
    (oc : ConnectOutcome) (w : WriteOutcome) (last : Bool) (s s1 : ConnState)
    (ops : List RadioOp) (hrole : truthyRole s.uuids key ≠ none)
    (h : writeAttempt key payload oc w last s = .done false s1 ops) :
    s1.connected = false := by
  unfold writeAttempt at h
  by_cases hconn : s.connected
  · rw [if_pos hconn] at h
    exact absurd h (fun h => writeBody_done_false_role key payload w s s1 [] ops hrole h)
  · rw [if_neg hconn] at h
    rcases hA : asyncConnect s oc with ⟨b, s2, ops2⟩
    rw [hA] at h
    cases b
    · have hc2 : s2.connected = false := by
        have := asyncConnect_false_connected s oc (by simpa using hconn) (by rw [hA])
        rw [hA] at this
        exact this
      cases last <;> simp_all
    · have hu : s2.uuids = s.uuids := by
        have := asyncConnect_uuids_eq s oc
        rw [hA] at this
        exact this
      exact absurd h
        (fun h => writeBody_done_false_role key payload w s2 s1 ops2 ops (hu ▸ hrole) h)

theorem writeRetryGo_counts (key : String) (payload : List Nat) (envC : Nat → ConnectOutcome)
    (envW : Nat → WriteOutcome) : ∀ (r k : Nat) (s : ConnState) (tr : List RadioOp),
    countWrites (writeRetryGo key payload envC envW k r s tr).2.2 ≤ countWrites tr + r
    ∧ countConnectCalls (writeRetryGo key payload envC envW k r s tr).2.2
        ≤ countConnectCalls tr + r := by
  intro r
  induction r with
  | zero =>
    intro k s tr
    simp [writeRetryGo]
  | succ r ih =>
    intro k s tr
    obtain ⟨hw, hc, _⟩ := writeAttempt_ops key payload (envC k) (envW k) (k == 2) s
    simp only [writeRetryGo]
    cases hA : writeAttempt key payload (envC k) (envW k) (k == 2) s with
    | done b s1 ops =>
      rw [hA] at hw hc
      simp only [stepOps] at hw hc
      simp only [countWrites_append, countConnectCalls_append]
      omega
    | retry s1 ops =>
      rw [hA] at hw hc
      simp only [stepOps] at hw hc
      obtain ⟨ih1, ih2⟩ := ih (k + 1) s1 (tr ++ ops)
      rw [countWrites_append] at ih1
      rw [countConnectCalls_append] at ih2
      constructor
      · exact le_trans ih1 (by omega)
      · exact le_trans ih2 (by omega)

theorem writeRetryGo_allfail (key : String) (payload : List Nat) (envC : Nat → ConnectOutcome)
    (envW : Nat → WriteOutcome) (hW : ∀ n, envW n ≠ .ok) :
    ∀ (r k : Nat) (s : ConnState) (tr : List RadioOp),
    (writeRetryGo key payload envC envW k r s tr).1 = false := by
  intro r
  induction r with
  | zero =>
    intro k s tr
    rfl
  | succ r ih =>
    intro k s tr
    simp only [writeRetryGo]
    cases hA : writeAttempt key payload (envC k) (envW k) (k == 2) s with
    | done b s1 ops =>
      cases b
      · rfl
      · exact absurd (writeAttempt_done_true key payload (envC k) (envW k) (k == 2) s s1 ops hA)
          (hW k)
    | retry s1 ops => exact ih (k + 1) s1 (tr ++ ops)

theorem writeRetryGo_shutdown (key : String) (payload : List Nat) (envC : Nat → ConnectOutcome)
    (envW : Nat → WriteOutcome) : ∀ (r k : Nat) (s : ConnState) (tr : List RadioOp),
    ((writeRetryGo key payload envC envW k r s tr).2.1).shutdown = s.shutdown := by
  intro r
  induction r with
  | zero =>
    intro k s tr
    rfl
  | succ r ih =>
    intro k s tr
    have hsd := writeAttempt_shutdown key payload (envC k) (envW k) (k == 2) s
    simp only [writeRetryGo]
    cases hA : writeAttempt key payload (envC k) (envW k) (k == 2) s with
    | done b s1 ops =>
      rw [hA] at hsd
      exact hsd
    | retry s1 ops =>
      rw [hA] at hsd
      simp only [stepState] at hsd
      rw [ih (k + 1) s1 (tr ++ ops)]
      exact hsd

theorem writeRetryGo_uuids (key : String) (payload : List Nat) (envC : Nat → ConnectOutcome)
    (envW : Nat → WriteOutcome) : ∀ (r k : Nat) (s : ConnState) (tr : List RadioOp),
    ((writeRetryGo key payload envC envW k r s tr).2.1).uuids = s.uuids := by
  intro r
  induction r with
  | zero =>
    intro k s tr
    rfl
  | succ r ih =>
    intro k s tr
    have huu := writeAttempt_uuids key payload (envC k) (envW k) (k == 2) s
    simp only [writeRetryGo]
    cases hA : writeAttempt key payload (envC k) (envW k) (k == 2) s with
    | done b s1 ops =>
      rw [hA] at huu
      exact huu
    | retry s1 ops =>
      rw [hA] at huu
      simp only [stepState] at huu
      rw [ih (k + 1) s1 (tr ++ ops)]
      exact huu

theorem writeRetryGo_payload (key : String) (payload : List Nat) (envC : Nat → ConnectOutcome)
    (envW : Nat → WriteOutcome) : ∀ (r k : Nat) (s : ConnState) (tr : List RadioOp),
    (∀ u p, RadioOp.writeChar u p ∈ tr → p = payload) →
    ∀ u p, RadioOp.writeChar u p ∈ (writeRetryGo key payload envC envW k r s tr).2.2 →
      p = payload := by
  intro r
  induction r with
  | zero =>
    intro k s tr hpre u p hmem
    exact hpre u p hmem
  | succ r ih =>
    intro k s tr hpre
    obtain ⟨_, _, hops⟩ := writeAttempt_ops key payload (envC k) (envW k) (k == 2) s
    simp only [writeRetryGo]
    cases hA : writeAttempt key payload (envC k) (envW k) (k == 2) s with
    | done b s1 ops =>
      rw [hA] at hops
      simp only [stepOps] at hops
      intro u p hmem
      rcases List.mem_append.mp hmem with h | h
      · exact hpre u p h
      · exact hops u p h
    | retry s1 ops =>
      rw [hA] at hops
      simp only [stepOps] at hops
      refine ih (k + 1) s1 (tr ++ ops) ?_
      intro u p hmem
      rcases List.mem_append.mp hmem with h | h
      · exact hpre u p h
      · exact hops u p h

theorem writeRetryGo_failfalse (key : String) (payload : List Nat) (envC : Nat → ConnectOutcome)
    (envW : Nat → WriteOutcome) : ∀ (r k : Nat) (s : ConnState) (tr : List RadioOp),
    truthyRole s.uuids key ≠ none → (r = 0 → s.connected = false) →
    (writeRetryGo key payload envC envW k r s tr).1 = false →
    ((writeRetryGo key payload envC envW k r s tr).2.1).connected = false := by
  intro r
  induction r with
  | zero =>
    intro k s tr _ hg _
    exact hg rfl
  | succ r ih =>
    intro k s tr hrole _ hfalse
    have huu := writeAttempt_uuids key payload (envC k) (envW k) (k == 2) s
    simp only [writeRetryGo] at hfalse ⊢
    cases hA : writeAttempt key payload (envC k) (envW k) (k == 2) s with
    | done b s1 ops =>
      rw [hA] at hfalse
      cases b
      · exact writeAttempt_done_false_connected key payload (envC k) (envW k) (k == 2) s s1 ops
          hrole hA
      · exact absurd hfalse (by simp)
    | retry s1 ops =>
      rw [hA] at hfalse huu
      simp only [stepState] at huu
      have hc1 : s1.connected = false :=
        writeAttempt_retry_connected key payload (envC k) (envW k) (k == 2) s s1 ops hA
      exact ih (k + 1) s1 (tr ++ ops) (by rw [huu]; exact hrole) (fun _ => hc1) hfalse

theorem asyncDisconnect_shutdown_eq (s : ConnState) :
    (asyncDisconnect s).shutdown = s.shutdown := by
  unfold asyncDisconnect
  split_ifs <;> rfl

theorem asyncShutdown_shutdown (s : ConnState) : (asyncShutdown s).shutdown = true := by
  rw [asyncShutdown, asyncDisconnect_shutdown_eq]

theorem applyOp_shutdown (s : ConnState) (op : MgrOp) (h : s.shutdown = true) :
    (applyOp s op).shutdown = true := by
  cases op with
  | connect oc => rw [applyOp, asyncConnect_shutdown_eq]; exact h
  | disconnect => rw [applyOp, asyncDisconnect_shutdown_eq]; exact h
  | shutdownOp => exact asyncShutdown_shutdown s
  | writeTarget role v envC envW =>
    rw [applyOp, asyncWriteTarget, writeRetryGo_shutdown]
    exact h
  | writePreset i envC envW =>
    rw [applyOp, asyncWritePreset, writeRetryGo_shutdown]
    exact h

theorem runOps_shutdown (s : ConnState) (ops : List MgrOp) (h : s.shutdown = true) :
    (runOps s ops).shutdown = true := by
  induction ops generalizing s with
  | nil => exact h
  | cons op ops ih => exact ih (applyOp s op) (applyOp_shutdown s op h)

/-- C6: from any state, once async_shutdown has run, any sequence of further
manager operations leaves the shutdown flag set, and async_connect on any
such reachable state returns false with the state unchanged (so the
connection-attempts counter is not incremented) and an empty radio trace
(no device lookup, no link establishment, no subscription). -/
theorem c6_connect_after_shutdown (s : ConnState) (ops : List MgrOp) (oc : ConnectOutcome) :
    asyncConnect (runOps (asyncShutdown s) ops) oc
      = (false, runOps (asyncShutdown s) ops, []) := by
  have hsd : (runOps (asyncShutdown s) ops).shutdown = true :=
    runOps_shutdown (asyncShutdown s) ops (asyncShutdown_shutdown s)
  unfold asyncConnect
  rw [if_pos hsd]

/-- C10: with the link connected, whenever the requested role is
unconfigured async_write_target returns false at once, with the state
unchanged (still connected) and no radio operation issued, hence no
retries; and independently, whenever the preset role is unconfigured
async_write_preset behaves the same. Each half assumes only its own role
missing, so the target half covers a device where turn_target was left
unset by discovery while the preset role is configured. -/
theorem c10_unconfigured_role (s : ConnState) (role : String) (v i : Int)
    (envC : Nat → ConnectOutcome) (envW : Nat → WriteOutcome)
    (hconn : s.connected = true) :
    (truthyRole s.uuids role = none →
      asyncWriteTarget s role v envC envW = (false, s, []))
    ∧ (truthyRole s.uuids "preset" = none →
      asyncWritePreset s i envC envW = (false, s, [])) := by
  constructor
  · intro hrole
    simp [asyncWriteTarget, writeRetryGo, writeAttempt, hconn, writeBody, hrole]
  · intro hpre
    simp [asyncWritePreset, writeRetryGo, writeAttempt, hconn, writeBody, hpre]

/-- C10 witness: a connected state with extension and preset configured but
turn_target unset fails a turn_target write immediately, unchanged and
silent; a connected state with an empty role map fails a preset write the
same way. -/
theorem c10_witness :
    asyncWriteTarget connState2 "turn_target" 5 (fun _ => ConnectOutcome.success)
        (fun _ => WriteOutcome.ok) = (false, connState2, [])
    ∧ asyncWritePreset connState10 1 (fun _ => ConnectOutcome.success)
        (fun _ => WriteOutcome.ok) = (false, connState10, []) :=
  ⟨(c10_unconfigured_role connState2 "turn_target" 5 1 (fun _ => ConnectOutcome.success)
      (fun _ => WriteOutcome.ok) rfl).1 (by decide),
   (c10_unconfigured_role connState10 "preset" 5 1 (fun _ => ConnectOutcome.success)
      (fun _ => WriteOutcome.ok) rfl).2 (by decide)⟩

/-- C4: the target write payload exists (the pack cannot fail after the
clamp), is exactly two bytes, decodes in little-endian order to the value
clamped into 0..100; the preset payload is the single byte equal to the
index clamped into 0..255; and every write issued by async_write_target
resp. async_write_preset carries exactly that payload. -/
theorem c4_write_encoding (v i : Int) :
    (∃ bs, targetPayloadOpt v = some bs ∧ bs.length = 2
      ∧ ((bs.getD 0 0 : Int) + 256 * (bs.getD 1 0 : Int) = clampTarget v)
      ∧ 0 ≤ clampTarget v ∧ clampTarget v ≤ 100)
    ∧ (∃ b, presetPayloadOpt i = some [b] ∧ (b : Int) = clampPreset i
      ∧ 0 ≤ clampPreset i ∧ clampPreset i ≤ 255)
    ∧ (∀ (s : ConnState) (role : String) (envC : Nat → ConnectOutcome)
        (envW : Nat → WriteOutcome) (u : List Char) (p : List Nat),
        RadioOp.writeChar u p ∈ (asyncWriteTarget s role v envC envW).2.2 →
          p = targetPayload v)
    ∧ (∀ (s : ConnState) (envC : Nat → ConnectOutcome) (envW : Nat → WriteOutcome)
        (u : List Char) (p : List Nat),
        RadioOp.writeChar u p ∈ (asyncWritePreset s i envC envW).2.2 →
          p = presetPayload i) := by
  have hrange : 0 ≤ clampTarget v ∧ clampTarget v < 65536 := by
    unfold clampTarget
    constructor <;> omega
  have hprange : 0 ≤ clampPreset i ∧ clampPreset i < 256 := by
    unfold clampPreset
    constructor <;> omega
  refine ⟨?_, ?_, ?_, ?_⟩
  · refine ⟨[(clampTarget v).toNat % 256, (clampTarget v).toNat / 256], ?_, rfl, ?_, hrange.1, ?_⟩
    · simp [targetPayloadOpt, structPackLEH, hrange.1, hrange.2]
    · simp only [List.getD_cons_zero, List.getD_cons_succ]
      unfold clampTarget at *
      omega
    · unfold clampTarget
      omega
  · refine ⟨(clampPreset i).toNat, ?_, ?_, hprange.1, ?_⟩
    · simp [presetPayloadOpt, pyBytes1, hprange.1, hprange.2]
    · unfold clampPreset at *
      omega
    · unfold clampPreset
      omega
  · intro s role envC envW u p hmem
    exact writeRetryGo_payload role (targetPayload v) envC envW 3 0 s [] (by simp) u p hmem
  · intro s envC envW u p hmem
    exact writeRetryGo_payload "preset" (presetPayload i) envC envW 3 0 s [] (by simp) u p hmem

/-- C4 witness: at value 150 and index 300 the payloads exist, the target
payload is two bytes decoding to the clamp 100, and the preset payload is
the single clamped byte 255. -/
theorem c4_witness :
    (∃ bs, targetPayloadOpt 150 = some bs ∧ bs.length = 2
      ∧ ((bs.getD 0 0 : Int) + 256 * (bs.getD 1 0 : Int) = clampTarget 150)
      ∧ 0 ≤ clampTarget 150 ∧ clampTarget 150 ≤ 100)
    ∧ (∃ b, presetPayloadOpt 300 = some [b] ∧ (b : Int) = clampPreset 300
      ∧ 0 ≤ clampPreset 300 ∧ clampPreset 300 ≤ 255) :=
  ⟨(c4_write_encoding 150 300).1, (c4_write_encoding 150 300).2.1⟩

/-- C2 (amended): the write paths are total and absorb every modelled
failure; at most 3 write attempts and at most 3 reconnection attempts are
made; when every write attempt fails the call returns false; and when the
role is configured, a false result leaves the link marked not connected.
However, a write failure as such is never recorded in statistics: only
connect failures set last_error, and a successful intervening reconnect
clears it (see the counterexample). -/
theorem c2_write_retry_absorption (s : ConnState) (role : String) (v i : Int)
    (envC : Nat → ConnectOutcome) (envW : Nat → WriteOutcome) :
    (countWrites (asyncWriteTarget s role v envC envW).2.2 ≤ 3
      ∧ countConnectCalls (asyncWriteTarget s role v envC envW).2.2 ≤ 3)
    ∧ ((∀ n, envW n ≠ .ok) → (asyncWriteTarget s role v envC envW).1 = false)
    ∧ (truthyRole s.uuids role ≠ none → (asyncWriteTarget s role v envC envW).1 = false →
        ((asyncWriteTarget s role v envC envW).2.1).connected = false)
    ∧ (countWrites (asyncWritePreset s i envC envW).2.2 ≤ 3
      ∧ countConnectCalls (asyncWritePreset s i envC envW).2.2 ≤ 3)
    ∧ ((∀ n, envW n ≠ .ok) → (asyncWritePreset s i envC envW).1 = false)
    ∧ (truthyRole s.uuids "preset" ≠ none → (asyncWritePreset s i envC envW).1 = false →
        ((asyncWritePreset s i envC envW).2.1).connected = false) := by
  refine ⟨⟨?_, ?_⟩, ?_, ?_, ⟨?_, ?_⟩, ?_, ?_⟩
  · simpa [countWrites] using (writeRetryGo_counts role (targetPayload v) envC envW 3 0 s []).1
  · simpa [countConnectCalls] using
      (writeRetryGo_counts role (targetPayload v) envC envW 3 0 s []).2
  · intro hW
    exact writeRetryGo_allfail role (targetPayload v) envC envW hW 3 0 s []
  · intro hrole hfalse
    exact writeRetryGo_failfalse role (targetPayload v) envC envW 3 0 s [] hrole
      (by omega) hfalse
  · simpa [countWrites] using (writeRetryGo_counts "preset" (presetPayload i) envC envW 3 0 s []).1
  · simpa [countConnectCalls] using
      (writeRetryGo_counts "preset" (presetPayload i) envC envW 3 0 s []).2
  · intro hW
    exact writeRetryGo_allfail "preset" (presetPayload i) envC envW hW 3 0 s []
  · intro hrole hfalse
    exact writeRetryGo_failfalse "preset" (presetPayload i) envC envW 3 0 s [] hrole
      (by omega) hfalse

/-- C2 counterexample: from a connected state with a stale error recorded,
three successive write timeouts with successful intervening reconnections
return false, yet statistics carry no record of the failure: last_error is
None afterwards, the successful reconnects having cleared even the stale
record. -/
theorem c2_counterexample :
    (asyncWriteTarget connState2 "extension_target" 50 (fun _ => ConnectOutcome.success)
        (fun _ => WriteOutcome.timeout)).1 = false
    ∧ ((asyncWriteTarget connState2 "extension_target" 50 (fun _ => ConnectOutcome.success)
        (fun _ => WriteOutcome.timeout)).2.1).stats.last_error = none
    ∧ connState2.stats.last_error = some "previous_error" := by
  refine ⟨?_, ?_, rfl⟩ <;> decide

/-- C2 witness: with every write timing out, both calls return false and
leave the link marked not connected. -/
theorem c2_witness :
    (asyncWriteTarget connState2 "extension_target" 50 (fun _ => ConnectOutcome.success)
        (fun _ => WriteOutcome.timeout)).1 = false
    ∧ ((asyncWriteTarget connState2 "extension_target" 50 (fun _ => ConnectOutcome.success)
        (fun _ => WriteOutcome.timeout)).2.1).connected = false
    ∧ (asyncWritePreset connState2 9 (fun _ => ConnectOutcome.success)
        (fun _ => WriteOutcome.timeout)).1 = false
    ∧ ((asyncWritePreset connState2 9 (fun _ => ConnectOutcome.success)
        (fun _ => WriteOutcome.timeout)).2.1).connected = false := by
  have h := c2_write_retry_absorption connState2 "extension_target" 50 9
    (fun _ => ConnectOutcome.success) (fun _ => WriteOutcome.timeout)
  have hW : ∀ n : Nat, (fun _ : Nat => WriteOutcome.timeout) n ≠ WriteOutcome.ok :=
    fun _ h => WriteOutcome.noConfusion h
  refine ⟨h.2.1 hW, h.2.2.1 (by decide) (h.2.1 hW), h.2.2.2.2.1 hW,
    h.2.2.2.2.2 (by decide) (h.2.2.2.2.1 hW)⟩

end MotionMount
